import Mathlib

/-!
Verification of the solution-file parsing and report-synthesis layer of
`simulate.c` (Battery-aware GeoSteiner simulation wrapper).

The C source is shallowly embedded: each line of a text file is a `List Char`,
C `double` values parsed from decimal text are rationals (`ℚ`), and the
`sscanf`/`strstr`-based scanners of the C code are modelled by character-level
scanning functions that mirror the C standard library semantics used by the
source (format-string whitespace matches any run of whitespace, `%d`/`%lf`
skip leading whitespace, `%c` does not, a literal character must match
exactly, `strstr` finds the first occurrence of a substring).
-/

namespace Simulate

/-- A line of a text file, as read by `fgets` (without the trailing newline). -/
abbrev Line := List Char

/-- C `isspace` on the default locale: space, tab, newline, vertical tab,
form feed, carriage return. -/
def isWsChar (c : Char) : Bool :=
  c == ' ' || c == '\t' || c == '\n' || c == '\x0b' || c == '\x0c' || c == '\r'

/-- Skip a (possibly empty) run of whitespace, as a whitespace directive in a
`scanf` format string does. -/
def skipWs (s : Line) : Line := s.dropWhile isWsChar

/-- Decimal digit test (C `isdigit`). -/
def isDigitChar (c : Char) : Bool := '0' ≤ c && c ≤ '9'

/-- Numeric value of a decimal digit character. -/
def digitVal (c : Char) : Nat := c.toNat - 48

/-- Value of a run of decimal digits. -/
def natOfDigits (ds : List Char) : Nat := ds.foldl (fun a c => 10 * a + digitVal c) 0

/-- Leading run of decimal digits and the rest of the input. -/
def spanDigits (s : Line) : List Char × Line :=
  (s.takeWhile isDigitChar, s.dropWhile isDigitChar)

/-- Match a `scanf` format-string fragment: a whitespace character in the
pattern skips any run of input whitespace, any other character must match the
next input character exactly.  Returns the rest of the input on success. -/
def scanLit : List Char → Line → Option Line
  | [], s => some s
  | p :: ps, s =>
    if isWsChar p then scanLit ps (skipWs s)
    else
      match s with
      | [] => none
      | c :: cs => if c == p then scanLit ps cs else none

/-- `%*s`: skip whitespace, then consume a nonempty run of non-whitespace
characters.  Fails at end of input. -/
def scanTok (s : Line) : Option Line :=
  match skipWs s with
  | [] => none
  | c :: cs => some ((c :: cs).dropWhile (fun a => !isWsChar a))

/-- Unsigned decimal-numeral part of `%lf` (`strtod` on the numerals this
program's logs contain): digits, an optional decimal point, more digits;
at least one digit in total. -/
def scanUFloat (s : Line) : Option (ℚ × Line) :=
  let (ip, r1) := spanDigits s
  match r1 with
  | '.' :: r2 =>
    let (fp, r3) := spanDigits r2
    if ip.isEmpty && fp.isEmpty then none
    else some ((natOfDigits ip : ℚ) + (natOfDigits fp : ℚ) / (10 : ℚ) ^ fp.length, r3)
  | _ =>
    if ip.isEmpty then none else some ((natOfDigits ip : ℚ), r1)

/-- `%lf`: skip whitespace, optional sign, decimal numeral. -/
def scanFloat (s : Line) : Option (ℚ × Line) :=
  match skipWs s with
  | '-' :: r => (scanUFloat r).map (fun p => (-p.1, p.2))
  | '+' :: r => scanUFloat r
  | r => scanUFloat r

/-- `%d`: skip whitespace, optional sign, at least one decimal digit. -/
def scanInt (s : Line) : Option (ℤ × Line) :=
  let core : Line → Option (ℕ × Line) := fun r =>
    let (ds, rest) := spanDigits r
    if ds.isEmpty then none else some (natOfDigits ds, rest)
  match skipWs s with
  | '-' :: r => (core r).map (fun p => (-(p.1 : ℤ), p.2))
  | '+' :: r => (core r).map (fun p => ((p.1 : ℤ), p.2))
  | r => (core r).map (fun p => ((p.1 : ℤ), p.2))

/-- Does `s` start with `pat` (exact character match, as inside `strstr`)? -/
def startsWith : List Char → Line → Bool
  | [], _ => true
  | _ :: _, [] => false
  | p :: ps, c :: cs => p == c && startsWith ps cs

/-- `strstr`: the suffix of `s` beginning at the first occurrence of `pat`,
if any. -/
def dropToInfix (pat : List Char) : Line → Option Line
  | [] => if startsWith pat [] then some [] else none
  | c :: t => if startsWith pat (c :: t) then some (c :: t) else dropToInfix pat t

/-- `strstr` viewed as a test: does `pat` occur in `s`? -/
def hasInfix (pat : List Char) (s : Line) : Bool := (dropToInfix pat s).isSome

/-! ## Convergence-Gap Extractor (`parse_final_mip_gap`)

The C function keeps six `double` registers initialised to `NAN` and scans the
log line by line, trying five matchers in a fixed order on every line.  A
register holding `NAN` is modelled as `none`. -/

/-- Matcher 1: `sscanf(line, "Best bound = %lf , Best integer = %lf", ...) == 2`. -/
def matchBestBound (l : Line) : Option (ℚ × ℚ) := do
  let r1 ← scanLit ("Best bound =").data l
  let (bb, r2) ← scanFloat r1
  let r3 ← scanLit (" , Best integer =").data r2
  let (bi, _) ← scanFloat r3
  some (bb, bi)

/-- Matcher 2: `sscanf(line, "MIP gap = %lf%%", ...) == 1`.  `sscanf` returns
the number of conversions *assigned*, so the count is 1 as soon as `%lf`
assigns — the trailing `%%` literal is not required to match (a
`MIP gap = 2.50` line without the percent sign also fires). -/
def matchMipGap (l : Line) : Option ℚ := do
  let r1 ← scanLit ("MIP gap =").data l
  let (g, _) ← scanFloat r1
  some g

/-- Matcher 3: a line containing both `MIP optimal` and `tolerance`; the value
is scanned with `sscanf(gap_str, "%lf%%") == 1` right after the first `(` of
the line.  As with matcher 2, the count is 1 once `%lf` assigns, so the
trailing `%%` literal is not required to match. -/
def matchTolerance (l : Line) : Option ℚ :=
  if hasInfix ("MIP optimal").data l && hasInfix ("tolerance").data l then
    match dropToInfix ("(").data l with
    | some (_ :: r) => (scanFloat r).map Prod.fst
    | _ => none
  else none

/-- Matcher 4: a line containing `New best:` and `Z =`; the value is scanned
with `"Z = %lf"` from the first occurrence of `Z =`. -/
def matchNewBest (l : Line) : Option ℚ :=
  if hasInfix ("New best:").data l && hasInfix ("Z =").data l then
    match dropToInfix ("Z =").data l with
    | some zpos =>
      match scanLit ("Z =").data zpos with
      | some r => (scanFloat r).map Prod.fst
      | none => none
    | none => none
  else none

/-- Matcher 5: a line containing `Best branch is`, `Z0 =` and `Z1 =`; both
values are scanned from the first occurrences of their markers. -/
def matchBranch (l : Line) : Option (ℚ × ℚ) :=
  if hasInfix ("Best branch is").data l && hasInfix ("Z0 =").data l
      && hasInfix ("Z1 =").data l then do
    let z0pos ← dropToInfix ("Z0 =").data l
    let r0 ← scanLit ("Z0 =").data z0pos
    let (z0, _) ← scanFloat r0
    let z1pos ← dropToInfix ("Z1 =").data l
    let r1 ← scanLit ("Z1 =").data z1pos
    let (z1, _) ← scanFloat r1
    some (z0, z1)
  else none

/-- The register file of `parse_final_mip_gap`; `none` models `NAN`. -/
structure GapState where
  best_bound : Option ℚ
  incumbent : Option ℚ
  gap : Option ℚ
  latest_best_z : Option ℚ
  latest_branch_z0 : Option ℚ
  latest_branch_z1 : Option ℚ
deriving Repr, DecidableEq

/-- All registers start as `NAN`. -/
def GapState.init : GapState := ⟨none, none, none, none, none, none⟩

/-- Effect of matcher 1 on the state. -/
def stepBestBound (st : GapState) (l : Line) : GapState :=
  match matchBestBound l with
  | some (bb, bi) =>
    { st with
      best_bound := some bb
      incumbent := some bi
      gap := if bi ≠ 0 then some (|bi - bb| / |bi|) else st.gap }
  | none => st

/-- Effect of matcher 2 on the state. -/
def stepMipGap (st : GapState) (l : Line) : GapState :=
  match matchMipGap l with
  | some g => { st with gap := some (g / 100) }
  | none => st

/-- Effect of matcher 3 on the state. -/
def stepTolerance (st : GapState) (l : Line) : GapState :=
  match matchTolerance l with
  | some g => { st with gap := some (g / 100) }
  | none => st

/-- Effect of matcher 4 on the state. -/
def stepNewBest (st : GapState) (l : Line) : GapState :=
  match matchNewBest l with
  | some z => { st with latest_best_z := some z }
  | none => st

/-- Effect of matcher 5 on the state. -/
def stepBranch (st : GapState) (l : Line) : GapState :=
  match matchBranch l with
  | some (z0, z1) =>
    let inc := min z0 z1
    let bb := max z0 z1
    { st with
      latest_branch_z0 := some z0
      latest_branch_z1 := some z1
      incumbent := some inc
      best_bound := some bb
      gap := if inc ≠ 0 then some (|bb - inc| / |inc|) else st.gap }
  | none => st

/-- One line of the scan: the five matchers are tried in document order. -/
def stepLine (st : GapState) (l : Line) : GapState :=
  stepBranch (stepNewBest (stepTolerance (stepMipGap (stepBestBound st l) l) l) l) l

/-- The whole scan of the log. -/
def scanGapLog (ls : List Line) : GapState := ls.foldl stepLine GapState.init

/-- End-of-scan fallback: if no gap was computed but a `New best` value and a
branch pair were captured, estimate the gap from them. -/
def gapFallback (st : GapState) : Option ℚ :=
  match st.gap with
  | some g => some g
  | none =>
    match st.latest_best_z, st.latest_branch_z0, st.latest_branch_z1 with
    | some z, some z0, some z1 =>
      let inc := z
      let bb := max z0 z1
      if inc ≠ 0 then some (|bb - inc| / |inc|) else none
    | _, _, _ => none

/-- `parse_final_mip_gap`: `none` as input models a log file that cannot be
opened (the C function returns `-1.0`); a `none` result models the `NAN`
"unavailable" sentinel. -/
def parse_final_mip_gap (file : Option (List Line)) : Option ℚ :=
  match file with
  | none => some (-1)
  | some ls => gapFallback (scanGapLog ls)

/-- The availability test every caller applies to the extractor's result:
`final_gap >= 0.0` (false both for `NAN` and for the `-1.0` sentinel). -/
def gapAvailable (r : Option ℚ) : Bool :=
  match r with
  | some g => decide (0 ≤ g)
  | none => false

/-! ## Helper lemmas about the scanners -/

theorem scanLit_cons_nil {p : Char} {ps : List Char} (hp : isWsChar p = false) :
    scanLit (p :: ps) [] = none := by
  simp [scanLit, hp]

theorem scanLit_cons_cons {p : Char} {ps : List Char} {c : Char} {cs : Line}
    (hp : isWsChar p = false) :
    scanLit (p :: ps) (c :: cs) = if c == p then scanLit ps cs else none := by
  simp [scanLit, hp]

theorem matchBestBound_head {l : Line} {x : ℚ × ℚ} (h : matchBestBound l = some x) :
    ∃ t, l = 'B' :: t := by
  have hd : ("Best bound =").data = 'B' :: ("est bound =").data := rfl
  unfold matchBestBound at h
  rw [hd] at h
  cases l with
  | nil =>
    rw [scanLit_cons_nil (by decide)] at h
    simp at h
  | cons c cs =>
    rw [scanLit_cons_cons (by decide)] at h
    by_cases hc : c = 'B'
    · exact ⟨cs, by rw [hc]⟩
    · rw [if_neg (by simpa using hc)] at h
      simp at h

theorem matchMipGap_head {l : Line} {g : ℚ} (h : matchMipGap l = some g) :
    ∃ t, l = 'M' :: t := by
  have hd : ("MIP gap =").data = 'M' :: ("IP gap =").data := rfl
  unfold matchMipGap at h
  rw [hd] at h
  cases l with
  | nil =>
    rw [scanLit_cons_nil (by decide)] at h
    simp at h
  | cons c cs =>
    rw [scanLit_cons_cons (by decide)] at h
    by_cases hc : c = 'M'
    · exact ⟨cs, by rw [hc]⟩
    · rw [if_neg (by simpa using hc)] at h
      simp at h

/-- A line matching the `Best bound` pattern starts with `B`, hence can not
also match the `MIP gap` pattern (which requires a leading `M`). -/
theorem matchBestBound_mipGap {l : Line} {x : ℚ × ℚ} (h : matchBestBound l = some x) :
    matchMipGap l = none := by
  obtain ⟨t, rfl⟩ := matchBestBound_head h
  have hd : ("MIP gap =").data = 'M' :: ("IP gap =").data := rfl
  unfold matchMipGap
  rw [hd, scanLit_cons_cons (by decide)]
  simp

/-- Conversely, a line matching the `MIP gap` pattern can not match the
`Best bound` pattern. -/
theorem matchMipGap_bestBound {l : Line} {g : ℚ} (h : matchMipGap l = some g) :
    matchBestBound l = none := by
  obtain ⟨t, rfl⟩ := matchMipGap_head h
  have hd : ("Best bound =").data = 'B' :: ("est bound =").data := rfl
  unfold matchBestBound
  rw [hd, scanLit_cons_cons (by decide)]
  simp

/-- A line on which none of the five matchers fires leaves the register file
unchanged. -/
theorem stepLine_id {st : GapState} {l : Line}
    (h1 : matchBestBound l = none) (h2 : matchMipGap l = none)
    (h3 : matchTolerance l = none) (h4 : matchNewBest l = none)
    (h5 : matchBranch l = none) :
    stepLine st l = st := by
  simp [stepLine, stepBranch, stepNewBest, stepTolerance, stepMipGap, stepBestBound,
    h1, h2, h3, h4, h5]

/-! ## Claim theorems: the Convergence-Gap Extractor -/

/-- C5: for every log line matching the literal pattern
`Best bound = <b> , Best integer = <i>` (and not also matching the later
tolerance or branch matchers, which the code would let overwrite the same
registers), the extractor sets `best_bound` to `b` and `incumbent` to `i`,
and computes `gap = |i - b| / |i|` exactly when `i ≠ 0`; when `i = 0` the gap
register is left untouched.  On the concrete log
`Best bound = 100.0 , Best integer = 120.0` the extracted gap is
`|120 - 100| / |120|`, and with `Best integer = 0.0` no gap is computed and
the final result is the unavailable sentinel, not a NaN-like value. -/
theorem C5_best_bound_pattern :
    (∀ (st : GapState) (l : Line) (bb bi : ℚ),
        matchBestBound l = some (bb, bi) →
        matchTolerance l = none →
        matchBranch l = none →
        (stepLine st l).best_bound = some bb ∧
        (stepLine st l).incumbent = some bi ∧
        (bi ≠ 0 → (stepLine st l).gap = some (|bi - bb| / |bi|)) ∧
        (bi = 0 → (stepLine st l).gap = st.gap)) ∧
    parse_final_mip_gap (some [("Best bound = 100.0 , Best integer = 120.0").data]) =
      some (|(120 : ℚ) - 100| / |(120 : ℚ)|) ∧
    parse_final_mip_gap (some [("Best bound = 100.0 , Best integer = 0.0").data]) = none ∧
    gapAvailable (parse_final_mip_gap
      (some [("Best bound = 100.0 , Best integer = 0.0").data])) = false := by
  refine ⟨?_, by with_unfolding_all rfl, by with_unfolding_all rfl,
    by with_unfolding_all rfl⟩
  intro st l bb bi h1 h3 h5
  have h2 := matchBestBound_mipGap h1
  have hfields : (stepLine st l).best_bound = (stepBestBound st l).best_bound ∧
      (stepLine st l).incumbent = (stepBestBound st l).incumbent ∧
      (stepLine st l).gap = (stepBestBound st l).gap := by
    unfold stepLine
    cases hnb : matchNewBest l <;>
      simp [stepBranch, stepNewBest, stepTolerance, stepMipGap, h2, h3, h5, hnb]
  have hbb : (stepBestBound st l).best_bound = some bb ∧
      (stepBestBound st l).incumbent = some bi ∧
      (stepBestBound st l).gap =
        (if bi ≠ 0 then some (|bi - bb| / |bi|) else st.gap) := by
    simp [stepBestBound, h1]
  refine ⟨hfields.1.trans hbb.1, hfields.2.1.trans hbb.2.1, ?_, ?_⟩
  · intro hne
    rw [hfields.2.2, hbb.2.2, if_pos hne]
  · intro hz
    rw [hfields.2.2, hbb.2.2, if_neg (by simp [hz])]

/-- Witness for C5 at the concrete input of the claim. -/
theorem C5_best_bound_pattern_witness :
    (stepLine GapState.init ("Best bound = 100.0 , Best integer = 120.0").data).best_bound
        = some 100 ∧
    (stepLine GapState.init ("Best bound = 100.0 , Best integer = 120.0").data).incumbent
        = some 120 ∧
    (stepLine GapState.init ("Best bound = 100.0 , Best integer = 120.0").data).gap
        = some (|(120 : ℚ) - 100| / |(120 : ℚ)|) := by
  have h := C5_best_bound_pattern.1 GapState.init
    (("Best bound = 100.0 , Best integer = 120.0").data) 100 120
    (by with_unfolding_all rfl) (by with_unfolding_all rfl) (by with_unfolding_all rfl)
  exact ⟨h.1, h.2.1, h.2.2.1 (by norm_num)⟩

/-- C9: for every log line matching the `MIP gap = <f>%` pattern (firing as
soon as the number parses, the trailing percent sign being optional under
`sscanf`'s assigned-conversion count; and not also matching the later
tolerance or branch matchers, which would overwrite the gap), the extractor
sets the gap to `f / 100` directly; the concrete log `MIP gap = 2.50%` yields
a gap of exactly `0.025`, and so does `MIP gap = 2.50` without the sign. -/
theorem C9_mip_gap_pattern :
    (∀ (st : GapState) (l : Line) (g : ℚ),
        matchMipGap l = some g →
        matchTolerance l = none →
        matchBranch l = none →
        (stepLine st l).gap = some (g / 100)) ∧
    parse_final_mip_gap (some [("MIP gap = 2.50%").data]) = some (0.025 : ℚ) ∧
    parse_final_mip_gap (some [("MIP gap = 2.50").data]) = some (0.025 : ℚ) ∧
    gapAvailable (parse_final_mip_gap (some [("MIP gap = 2.50%").data])) = true := by
  refine ⟨?_, by with_unfolding_all rfl, by with_unfolding_all rfl,
    by with_unfolding_all rfl⟩
  intro st l g h2 h3 h5
  have h1 := matchMipGap_bestBound h2
  have hgap : (stepLine st l).gap = (stepMipGap (stepBestBound st l) l).gap := by
    unfold stepLine
    cases hnb : matchNewBest l <;>
      simp [stepBranch, stepNewBest, stepTolerance, h3, h5, hnb]
  rw [hgap]
  simp [stepMipGap, h2]

/-- Witness for C9 at the concrete input of the claim. -/
theorem C9_mip_gap_pattern_witness :
    (stepLine GapState.init ("MIP gap = 2.50%").data).gap = some ((5 / 2 : ℚ) / 100) :=
  C9_mip_gap_pattern.1 GapState.init (("MIP gap = 2.50%").data) (5 / 2)
    (by with_unfolding_all rfl) (by with_unfolding_all rfl) (by with_unfolding_all rfl)

/-- C6: if no line of the log fires any of the five matchers, the extractor's
result is the unavailable sentinel, which is distinct from a computed gap of
exactly `0`; an unreadable log likewise yields an unavailable result rather
than an error. -/
theorem C6_no_match_unavailable :
    (∀ ls : List Line,
        (∀ l ∈ ls, matchBestBound l = none ∧ matchMipGap l = none ∧
          matchTolerance l = none ∧ matchNewBest l = none ∧ matchBranch l = none) →
        parse_final_mip_gap (some ls) = none) ∧
    gapAvailable none = false ∧
    (none : Option ℚ) ≠ some 0 ∧
    gapAvailable (some 0) = true ∧
    gapAvailable (parse_final_mip_gap none) = false := by
  refine ⟨?_, rfl, by simp, by with_unfolding_all rfl, by with_unfolding_all rfl⟩
  have key : ∀ ls : List Line,
      (∀ l ∈ ls, matchBestBound l = none ∧ matchMipGap l = none ∧
        matchTolerance l = none ∧ matchNewBest l = none ∧ matchBranch l = none) →
      scanGapLog ls = GapState.init := by
    intro ls
    induction ls with
    | nil => intro _; rfl
    | cons l t ih =>
      intro h
      have hl := h l (List.mem_cons_self l t)
      have ht := fun x hx => h x (List.mem_cons_of_mem l hx)
      show List.foldl stepLine GapState.init (l :: t) = GapState.init
      rw [List.foldl_cons, stepLine_id hl.1 hl.2.1 hl.2.2.1 hl.2.2.2.1 hl.2.2.2.2]
      exact ih ht
  intro ls h
  show gapFallback (scanGapLog ls) = none
  rw [key ls h]
  rfl

/-- Witness for C6 on a concrete log with no matching line. -/
theorem C6_no_match_unavailable_witness :
    parse_final_mip_gap (some [("branch and cut progress line").data]) = none :=
  C6_no_match_unavailable.1 [("branch and cut progress line").data]
    (by
      intro l hl
      rcases List.mem_singleton.mp hl with rfl
      exact ⟨by with_unfolding_all rfl, by with_unfolding_all rfl, by with_unfolding_all rfl,
        by with_unfolding_all rfl, by with_unfolding_all rfl⟩)

/-! ## Coverage Extractor (`parse_solution_coverage`) -/

/-- The line matcher of `parse_solution_coverage`: the line must contain the
substrings `not_covered[` and `] =`, and must additionally satisfy
`sscanf(line, "%*s %*s %*s not_covered[%d] = %lf", ...) == 2`, i.e. exactly
three whitespace-separated tokens must precede the `not_covered[` marker. -/
def coverageMatch (l : Line) : Option (ℤ × ℚ) :=
  if hasInfix ("not_covered[").data l && hasInfix ("] =").data l then do
    let r1 ← scanTok l
    let r2 ← scanTok r1
    let r3 ← scanTok r2
    let r4 ← scanLit (" not_covered[").data r3
    let (i, r5) ← scanInt r4
    let r6 ← scanLit ("] = ").data r5
    let (v, _) ← scanFloat r6
    some (i, v)
  else none

/-- One line of the coverage scan: a matched in-range index overwrites its
register, everything else leaves the registers alone. -/
def coverageStep (acc : List ℚ) (l : Line) : List ℚ :=
  match coverageMatch l with
  | some (i, v) => if 0 ≤ i ∧ i < (acc.length : ℤ) then acc.set i.toNat v else acc
  | none => acc

/-- The per-terminal `final_not_covered` registers after scanning the whole
log; every register starts at `0`. -/
def coverageFinal (ls : List Line) (maxT : Nat) : List ℚ :=
  ls.foldl coverageStep (List.replicate maxT 0)

/-- `parse_solution_coverage`: the resulting per-terminal covered flags.
An unopenable log (`none`) leaves every terminal at its covered default;
otherwise terminal `i` is covered iff its final stored value is `< 0.5`. -/
def parse_solution_coverage (file : Option (List Line)) (maxT : Nat) : List Bool :=
  match file with
  | none => List.replicate maxT true
  | some ls => (coverageFinal ls maxT).map (fun v => decide (v < 1 / 2))

/-- Modelled from the spec: the Coverage Extractor as the specification words
it — scan every line for the textual marker `not_covered[<i>]` followed by
`= <v>` anywhere in the line, with no condition on what precedes the marker.
Used only to compare the specified behaviour with the implemented one. -/
def coverageMatchSpec (l : Line) : Option (ℤ × ℚ) := do
  let r1 ← dropToInfix ("not_covered[").data l
  let r2 ← scanLit ("not_covered[").data r1
  let (i, r3) ← scanInt r2
  let r4 ← scanLit ("] = ").data r3
  let (v, _) ← scanFloat r4
  some (i, v)

/-- Modelled from the spec: the per-line register update induced by
`coverageMatchSpec`. -/
def coverageStepSpec (acc : List ℚ) (l : Line) : List ℚ :=
  match coverageMatchSpec l with
  | some (i, v) => if 0 ≤ i ∧ i < (acc.length : ℤ) then acc.set i.toNat v else acc
  | none => acc

/-- Modelled from the spec: the covered flags the spec's description of the
Coverage Extractor would produce. -/
def parse_solution_coverage_spec (file : Option (List Line)) (maxT : Nat) : List Bool :=
  match file with
  | none => List.replicate maxT true
  | some ls =>
    (ls.foldl coverageStepSpec (List.replicate maxT 0)).map (fun v => decide (v < 1 / 2))

theorem coverageStep_length (acc : List ℚ) (l : Line) :
    (coverageStep acc l).length = acc.length := by
  unfold coverageStep
  cases coverageMatch l with
  | none => rfl
  | some p =>
    rcases p with ⟨i, v⟩
    by_cases h : 0 ≤ i ∧ i < (acc.length : ℤ) <;> simp [h]

theorem coverageFinal_length (ls : List Line) (maxT : Nat) :
    (coverageFinal ls maxT).length = maxT := by
  have key : ∀ (ls : List Line) (acc : List ℚ),
      (ls.foldl coverageStep acc).length = acc.length := by
    intro ls
    induction ls with
    | nil => intro acc; rfl
    | cons l t ih =>
      intro acc
      rw [List.foldl_cons, ih, coverageStep_length]
  rw [coverageFinal, key, List.length_replicate]

/-! ## Claim theorems: the Coverage Extractor -/

/-- C1 counterexample: on the log consisting of the single line
`not_covered[3] = 0.9` the claimed scan stores `0.9` for terminal 3 and hence
reports it uncovered, but the implemented extractor requires three
whitespace-separated tokens before the marker, skips the line, and leaves
terminal 3 covered. -/
theorem C1_coverage_counterexample :
    (parse_solution_coverage (some [("not_covered[3] = 0.9").data]) 50)[3]? = some true ∧
    (parse_solution_coverage_spec (some [("not_covered[3] = 0.9").data]) 50)[3]?
      = some false ∧
    coverageMatchSpec (("not_covered[3] = 0.9").data) = some (3, 9 / 10) ∧
    coverageMatch (("not_covered[3] = 0.9").data) = none := by
  exact ⟨by with_unfolding_all rfl, by with_unfolding_all rfl,
    by with_unfolding_all rfl, by with_unfolding_all rfl⟩

/-- C1 amended: the extractor stores `v` for index `i` only from lines where
the marker `not_covered[i] = v` is preceded by exactly three
whitespace-separated tokens (the `% DEBUG LP_VARS:` prefix of the solver log)
and the line also contains `] =`.  With that qualification the claim holds:
storing is last-write-wins, a terminal is covered iff its final stored value
is `< 0.5`, terminals never stored stay covered, out-of-range indices are
ignored without error, and the prefixed two-line `0.9`-then-`0.2` log leaves
terminal 3 covered. -/
theorem C1_coverage_amended :
    (∀ (pre : List Line) (l : Line) (i : ℤ) (v : ℚ) (maxT : Nat),
        coverageMatch l = some (i, v) → 0 ≤ i → i < (maxT : ℤ) →
        (parse_solution_coverage (some (pre ++ [l])) maxT)[i.toNat]?
          = some (decide (v < 1 / 2))) ∧
    (∀ (ls : List Line) (maxT i : Nat), i < maxT →
        (∀ l ∈ ls, ∀ v : ℚ, coverageMatch l ≠ some ((i : ℤ), v)) →
        (parse_solution_coverage (some ls) maxT)[i]? = some true) ∧
    (∀ (pre : List Line) (l : Line) (i : ℤ) (v : ℚ) (maxT : Nat),
        coverageMatch l = some (i, v) → ¬(0 ≤ i ∧ i < (maxT : ℤ)) →
        parse_solution_coverage (some (pre ++ [l])) maxT
          = parse_solution_coverage (some pre) maxT) ∧
    (∀ (file : Option (List Line)) (maxT : Nat),
        (parse_solution_coverage file maxT).length = maxT) ∧
    (parse_solution_coverage
      (some [("  % DEBUG LP_VARS: not_covered[3] = 0.900000 (terminal 3)").data,
             ("  % DEBUG LP_VARS: not_covered[3] = 0.200000 (terminal 3)").data])
      50)[3]? = some true ∧
    (parse_solution_coverage
      (some [("  % DEBUG LP_VARS: not_covered[3] = 0.900000 (terminal 3)").data])
      50)[3]? = some false := by
  refine ⟨?_, ?_, ?_, ?_, by with_unfolding_all rfl, by with_unfolding_all rfl⟩
  · intro pre l i v maxT hm h0 hi
    have hffl : coverageFinal (pre ++ [l]) maxT = coverageStep (coverageFinal pre maxT) l := by
      unfold coverageFinal
      rw [List.foldl_append, List.foldl_cons, List.foldl_nil]
    have hlen : (coverageFinal pre maxT).length = maxT := coverageFinal_length _ _
    show ((coverageFinal (pre ++ [l]) maxT).map _)[i.toNat]? = _
    rw [hffl]
    simp only [coverageStep, hm]
    rw [hlen, if_pos ⟨h0, hi⟩]
    rw [List.getElem?_map, List.getElem?_set_eq_of_lt]
    · rfl
    · rw [hlen]
      exact (Int.toNat_lt h0).mpr hi
  · intro ls maxT i hi h
    have key : ∀ (ls : List Line) (acc : List ℚ),
        (∀ l ∈ ls, ∀ v : ℚ, coverageMatch l ≠ some ((i : ℤ), v)) →
        acc[i]? = some 0 → (ls.foldl coverageStep acc)[i]? = some 0 := by
      intro ls
      induction ls with
      | nil => intro acc _ hacc; exact hacc
      | cons l t ih =>
        intro acc h hacc
        have hl := h l (List.mem_cons_self l t)
        have ht := fun x hx => h x (List.mem_cons_of_mem l hx)
        rw [List.foldl_cons]
        refine ih _ ht ?_
        cases hm : coverageMatch l with
        | none => simpa [coverageStep, hm] using hacc
        | some p =>
          rcases p with ⟨j, v⟩
          simp only [coverageStep, hm]
          by_cases hj : 0 ≤ j ∧ j < (acc.length : ℤ)
          · rw [if_pos hj]
            have hne : j.toNat ≠ i := by
              intro hEq
              apply hl v
              rw [hm, ← hEq, Int.toNat_of_nonneg hj.1]
            rw [List.getElem?_set_ne hne]
            exact hacc
          · rw [if_neg hj]
            exact hacc
    show ((coverageFinal ls maxT).map _)[i]? = _
    rw [List.getElem?_map]
    have h0 : (coverageFinal ls maxT)[i]? = some 0 := by
      refine key ls _ h ?_
      rw [List.getElem?_replicate, if_pos hi]
    rw [h0]
    have : decide ((0 : ℚ) < 1 / 2) = true := by
      rw [decide_eq_true_eq]
      norm_num
    simp [this]
  · intro pre l i v maxT hm hout
    have hffl : coverageFinal (pre ++ [l]) maxT = coverageStep (coverageFinal pre maxT) l := by
      unfold coverageFinal
      rw [List.foldl_append, List.foldl_cons, List.foldl_nil]
    have hlen : (coverageFinal pre maxT).length = maxT := coverageFinal_length _ _
    show ((coverageFinal (pre ++ [l]) maxT).map _) = ((coverageFinal pre maxT).map _)
    rw [hffl]
    simp only [coverageStep, hm]
    rw [hlen, if_neg hout]
  · intro file maxT
    cases file with
    | none => exact List.length_replicate _ _
    | some ls =>
      show ((coverageFinal ls maxT).map _).length = maxT
      rw [List.length_map, coverageFinal_length]

/-- Witness for the amended C1 at a concrete prefixed log line. -/
theorem C1_coverage_amended_witness :
    (parse_solution_coverage
      (some [("  % DEBUG LP_VARS: not_covered[3] = 0.200000 (terminal 3)").data])
      50)[3]? = some true := by
  have h := C1_coverage_amended.1 []
    (("  % DEBUG LP_VARS: not_covered[3] = 0.200000 (terminal 3)").data)
    3 (1 / 5) 50 (by with_unfolding_all rfl) (by norm_num) (by norm_num)
  have e : decide ((1 / 5 : ℚ) < 1 / 2) = true := by
    rw [decide_eq_true_eq]
    norm_num
  rw [e] at h
  exact h

/-! ## Coordinate scaling (`scale_coordinates`) -/

/-- The C cast `(int)` applied to a real value: truncation toward zero. -/
def truncTowardZero (q : ℚ) : ℤ := if q < 0 then ⌈q⌉ else ⌊q⌋

/-- `scale_coordinates`: `margin + (int)(x * (width - 2*margin))` and
`margin + (int)((1.0 - y) * (height - 2*margin))` with margin 50, width 800,
height 600. -/
def scale_coordinates (x y : ℚ) : ℤ × ℤ :=
  (50 + truncTowardZero (x * (800 - 2 * 50)),
   50 + truncTowardZero ((1 - y) * (600 - 2 * 50)))

theorem truncTowardZero_mono {a b : ℚ} (h : a ≤ b) :
    truncTowardZero a ≤ truncTowardZero b := by
  unfold truncTowardZero
  by_cases ha : a < 0 <;> by_cases hb : b < 0
  · rw [if_pos ha, if_pos hb]
    exact Int.ceil_le_ceil h
  · rw [if_pos ha, if_neg hb]
    refine le_trans (Int.ceil_le.mpr ?_) (Int.floor_nonneg.mpr (not_lt.mp hb))
    exact_mod_cast ha.le
  · exact absurd (lt_of_le_of_lt h hb) ha
  · rw [if_neg ha, if_neg hb]
    exact Int.floor_le_floor h

/-! ## Claim theorems: coordinate scaling -/

/-- C3 counterexample: the scaled coordinates are integers obtained by
truncation, so strictly increasing `x` need not strictly increase scaled-x:
`x = 0` and `x = 1/1400` (both in `[0,1]`) scale to the same x pixel. -/
theorem C3_scale_counterexample :
    (0 : ℚ) < 1 / 1400 ∧
    (scale_coordinates 0 0).1 = (scale_coordinates (1 / 1400) 0).1 := by
  constructor
  · norm_num
  · with_unfolding_all rfl

/-- C3 amended: the scaling is the integer truncation of a linear map and is
weakly monotone — increasing `x` never decreases scaled-x, increasing `y`
never increases scaled-y (flipped axis) — and for `x, y ∈ [0,1]` the scaled
x lies in `[50, 750]` and the scaled y in `[50, 550]`. -/
theorem C3_scale_amended :
    (∀ x1 x2 y : ℚ, x1 ≤ x2 →
        (scale_coordinates x1 y).1 ≤ (scale_coordinates x2 y).1) ∧
    (∀ x y1 y2 : ℚ, y1 ≤ y2 →
        (scale_coordinates x y2).2 ≤ (scale_coordinates x y1).2) ∧
    (∀ x y : ℚ, 0 ≤ x → x ≤ 1 → 0 ≤ y → y ≤ 1 →
        50 ≤ (scale_coordinates x y).1 ∧ (scale_coordinates x y).1 ≤ 750 ∧
        50 ≤ (scale_coordinates x y).2 ∧ (scale_coordinates x y).2 ≤ 550) := by
  refine ⟨?_, ?_, ?_⟩
  · intro x1 x2 y h
    have : x1 * (800 - 2 * 50) ≤ x2 * (800 - 2 * 50) := by nlinarith
    exact add_le_add_left (truncTowardZero_mono this) 50
  · intro x y1 y2 h
    have : (1 - y2) * (600 - 2 * 50) ≤ (1 - y1) * (600 - 2 * 50) := by nlinarith
    exact add_le_add_left (truncTowardZero_mono this) 50
  · intro x y hx0 hx1 hy0 hy1
    have hx0' : (0 : ℚ) ≤ x * (800 - 2 * 50) := by nlinarith
    have hx1' : x * (800 - 2 * 50) ≤ 700 := by nlinarith
    have hy0' : (0 : ℚ) ≤ (1 - y) * (600 - 2 * 50) := by nlinarith
    have hy1' : (1 - y) * (600 - 2 * 50) ≤ 500 := by nlinarith
    have ex : (scale_coordinates x y).1 = 50 + ⌊x * (800 - 2 * 50 : ℚ)⌋ := by
      show 50 + truncTowardZero _ = _
      rw [truncTowardZero, if_neg (not_lt.mpr hx0')]
    have ey : (scale_coordinates x y).2 = 50 + ⌊(1 - y) * (600 - 2 * 50 : ℚ)⌋ := by
      show 50 + truncTowardZero _ = _
      rw [truncTowardZero, if_neg (not_lt.mpr hy0')]
    have hfx0 : 0 ≤ ⌊x * (800 - 2 * 50 : ℚ)⌋ := Int.floor_nonneg.mpr hx0'
    have hfx1 : ⌊x * (800 - 2 * 50 : ℚ)⌋ ≤ 700 := by
      have := Int.floor_le_floor hx1'
      simpa using this
    have hfy0 : 0 ≤ ⌊(1 - y) * (600 - 2 * 50 : ℚ)⌋ := Int.floor_nonneg.mpr hy0'
    have hfy1 : ⌊(1 - y) * (600 - 2 * 50 : ℚ)⌋ ≤ 500 := by
      have := Int.floor_le_floor hy1'
      simpa using this
    rw [ex, ey]
    omega

/-- Witness for the amended C3 at concrete inputs. -/
theorem C3_scale_amended_witness :
    (scale_coordinates 0 0).1 ≤ (scale_coordinates 1 0).1 ∧
    (scale_coordinates 0 1).2 ≤ (scale_coordinates 0 0).2 ∧
    (50 ≤ (scale_coordinates (1 / 2) (1 / 2)).1 ∧
      (scale_coordinates (1 / 2) (1 / 2)).1 ≤ 750 ∧
      50 ≤ (scale_coordinates (1 / 2) (1 / 2)).2 ∧
      (scale_coordinates (1 / 2) (1 / 2)).2 ≤ 550) :=
  ⟨C3_scale_amended.1 0 1 0 (by norm_num),
   C3_scale_amended.2.1 0 0 1 (by norm_num),
   C3_scale_amended.2.2 (1 / 2) (1 / 2) (by norm_num) (by norm_num)
     (by norm_num) (by norm_num)⟩

/-! ## Selected-Tree Parser (`parse_fsts_from_solution`) -/

/-- The in-memory `FST` record of the C program (the fixed-size arrays are
lists; `steiner` is the single recorded Steiner point, if any). -/
structure FSTRec where
  fst_id : ℤ
  terminal_ids : List ℤ
  num_steiner_points : Nat
  steiner : Option (ℚ × ℚ)
  selected : Bool
  cost : ℚ
deriving Repr, DecidableEq

/-- Up to `n` integers scanned with consecutive `%d` directives; scanning
stops at the first token that does not parse as an integer. -/
def parseInts : Nat → Line → List ℤ
  | 0, _ => []
  | n + 1, s =>
    match scanInt s with
    | some (v, r) => v :: parseInts n r
    | none => []

/-- The tree-header matcher of the outer scan: the trimmed line must contain
`% fs` and `:` (the `strstr` gates) and match
`sscanf(trimmed, "%% fs%d:", &fst_id) == 1`.  The count is 1 as soon as `%d`
assigns, so the trailing `:` literal need not follow the digits; the terminal
list is then scanned after the *first* colon anywhere in the trimmed line
(`strchr(trimmed, ':')`) — no colon can precede the digits when the scan
succeeds, since only `%`, whitespace, `fs` and a sign may come before them. -/
def headerMatch (l : Line) : Option (ℤ × List ℤ) :=
  let t := skipWs l
  if hasInfix ("% fs").data t && hasInfix (":").data t then do
    let r1 ← scanLit ("% fs").data t
    let (id, _) ← scanInt r1
    match dropToInfix (":").data t with
    | some (_ :: afterColon) => some (id, parseInts 10 afterColon)
    | _ => none
  else none

/-- A header line is recorded only when at least one terminal id parsed
(`count > 0` in the C code). -/
def headerRecord (l : Line) : Option (ℤ × List ℤ) :=
  match headerMatch l with
  | some (id, ts) => if ts.isEmpty then none else some (id, ts)
  | none => none

/-- The geometry-line matcher of the inner lookahead:
`sscanf(trimmed, "%lf %lf %d %c S", ...) == 4 && t_char == 'T'`.  Note that
`sscanf` reports 4 conversions as soon as the `%c` succeeds, so the trailing
literal `S` is *not* required for a match. -/
def geomMatch (l : Line) : Option (ℚ × ℚ) :=
  let t := skipWs l
  match scanFloat t with
  | some (x, r1) =>
    match scanFloat r1 with
    | some (y, r2) =>
      match scanInt r2 with
      | some (_, r3) =>
        match skipWs r3 with
        | c :: _ => if c == 'T' then some (x, y) else none
        | [] => none
      | none => none
    | none => none
  | none => none

/-- The inner lookahead's stop test: the trimmed line contains `% fs` or
`EndPlot`. -/
def isStopLine (l : Line) : Bool :=
  hasInfix ("% fs").data (skipWs l) || hasInfix ("EndPlot").data (skipWs l)

/-- The bounded inner lookahead: geometry lines record the first Steiner
point seen and scanning continues; a stop line ends the lookahead and the
file position is rewound so the stop line stays unconsumed; anything else is
skipped. -/
def lookaheadSteiner : List Line → Option (ℚ × ℚ) → Option (ℚ × ℚ) × List Line
  | [], acc => (acc, [])
  | l :: rest, acc =>
    match geomMatch l with
    | some p => lookaheadSteiner rest (acc.orElse (fun _ => some p))
    | none =>
      if isStopLine l then (acc, l :: rest)
      else lookaheadSteiner rest acc

/-- A tree recorded by the Selected-Tree Parser. -/
def mkSolFST (id : ℤ) (ts : List ℤ) (pt : Option (ℚ × ℚ)) : FSTRec :=
  ⟨id, ts, if pt.isSome then 1 else 0, pt, true, 0⟩

/-- The outer scan, with explicit fuel (one unit per consumed line, so
`fuel = number of lines` is always enough): headers are recorded, the inner
lookahead supplies the Steiner point and the rewound rest of the file, and at
most `cap` trees are recorded. -/
def parseFstsSolGo : Nat → Nat → Nat → List Line → List FSTRec
  | 0, _, _, _ => []
  | _ + 1, _, _, [] => []
  | fuel + 1, cnt, cap, l :: rest =>
    if cap ≤ cnt then []
    else
      match headerRecord l with
      | some (id, ts) =>
        let la := lookaheadSteiner rest none
        mkSolFST id ts la.1 :: parseFstsSolGo fuel (cnt + 1) cap la.2
      | none => parseFstsSolGo fuel cnt cap rest

/-- `parse_fsts_from_solution` on a readable log. -/
def parse_fsts_from_solution (ls : List Line) (cap : Nat) : List FSTRec :=
  parseFstsSolGo ls.length 0 cap ls

/-! ## Claim theorems: the Selected-Tree Parser -/

/-- C4: the log `% fs2: 0 1 2` followed by `0.5 0.5 1 T S` parses to the
single tree with id 2, terminals `[0,1,2]` and junction `(0.5, 0.5)`; a
header whose colon does not directly follow the id digits, such as
`% fs2 : 7 8`, is still recorded (the `sscanf` count is 1 once `%d`
assigns, and terminals are read after the first colon anywhere); the inner
lookahead, upon reaching a stop line (next tree header or end-of-plot
marker), rewinds so that exactly that line and everything after it remain for
the outer scan; and the outer scan, on a recordable header line, records that
header and continues at the lookahead's rewound position — so no header line
is skipped. -/
theorem C4_selected_tree_scan :
    parse_fsts_from_solution [("% fs2: 0 1 2").data, ("0.5 0.5 1 T S").data] 50
      = [{ fst_id := 2, terminal_ids := [0, 1, 2], num_steiner_points := 1,
           steiner := some (1 / 2, 1 / 2), selected := true, cost := 0 }] ∧
    parse_fsts_from_solution [("% fs2 : 7 8").data] 50
      = [{ fst_id := 2, terminal_ids := [7, 8], num_steiner_points := 0,
           steiner := none, selected := true, cost := 0 }] ∧
    (∀ (pre : List Line) (h : Line) (rest : List Line) (acc : Option (ℚ × ℚ)),
        (∀ l ∈ pre, (geomMatch l).isSome = true ∨ isStopLine l = false) →
        geomMatch h = none → isStopLine h = true →
        (lookaheadSteiner (pre ++ h :: rest) acc).2 = h :: rest) ∧
    (∀ (fuel cnt cap : Nat) (hl : Line) (rest : List Line) (id : ℤ) (ts : List ℤ),
        headerRecord hl = some (id, ts) → cnt < cap →
        parseFstsSolGo (fuel + 1) cnt cap (hl :: rest)
          = mkSolFST id ts (lookaheadSteiner rest none).1
              :: parseFstsSolGo fuel (cnt + 1) cap (lookaheadSteiner rest none).2) := by
  refine ⟨by with_unfolding_all rfl, by with_unfolding_all rfl, ?_, ?_⟩
  · intro pre
    induction pre with
    | nil =>
      intro h rest acc _ hg hs
      simp [lookaheadSteiner, hg, hs]
    | cons l pre ih =>
      intro h rest acc hpre hg hs
      have hrest := fun x hx => hpre x (List.mem_cons_of_mem l hx)
      cases hgm : geomMatch l with
      | some p =>
        simp only [List.cons_append, lookaheadSteiner, hgm]
        exact ih h rest _ hrest hg hs
      | none =>
        have hstop : isStopLine l = false := by
          rcases hpre l (List.mem_cons_self l pre) with hgeom | hstop
          · rw [hgm] at hgeom
            simp at hgeom
          · exact hstop
        simp only [List.cons_append, lookaheadSteiner, hgm, hstop, Bool.false_eq_true,
          if_false]
        exact ih h rest acc hrest hg hs
  · intro fuel cnt cap hl rest id ts hrec hcap
    simp only [parseFstsSolGo]
    rw [if_neg (Nat.not_le.mpr hcap)]
    simp only [hrec]

/-- Witness for C4's rewind and header-recording statements at concrete
inputs. -/
theorem C4_selected_tree_scan_witness :
    (lookaheadSteiner
        [("0.5 0.5 1 T S").data, ("some solver chatter").data,
         ("% fs3: 4 5").data, ("tail line").data] none).2
      = [("% fs3: 4 5").data, ("tail line").data] ∧
    parseFstsSolGo 2 0 50 [("% fs2: 0 1 2").data] = [mkSolFST 2 [0, 1, 2] none] := by
  constructor
  · refine C4_selected_tree_scan.2.2.1
      [("0.5 0.5 1 T S").data, ("some solver chatter").data]
      (("% fs3: 4 5").data) [("tail line").data] none ?_
      (by with_unfolding_all rfl) (by with_unfolding_all rfl)
    intro l hl
    simp only [List.mem_cons, List.not_mem_nil, or_false] at hl
    rcases hl with h | h
    · left
      rw [h]
      with_unfolding_all rfl
    · right
      rw [h]
      with_unfolding_all rfl
  · have h := C4_selected_tree_scan.2.2.2 1 0 50 (("% fs2: 0 1 2").data) [] 2 [0, 1, 2]
      (by with_unfolding_all rfl) (by norm_num)
    rw [h]
    with_unfolding_all rfl

/-! ## Tree Dump Parser (`parse_fsts_from_dump`) -/

/-- `strtok_r` delimiters used by the dump parser: space and tab. -/
def isSepChar (c : Char) : Bool := c == ' ' || c == '\t'

/-- Tokeniser accumulator: splits on separators, dropping empty tokens, as
repeated `strtok_r(..., " \t", ...)` does. -/
def splitToksAux : Line → List Char → List (List Char)
  | [], cur => if cur.isEmpty then [] else [cur.reverse]
  | c :: cs, cur =>
    if isSepChar c then
      if cur.isEmpty then splitToksAux cs [] else cur.reverse :: splitToksAux cs []
    else splitToksAux cs (c :: cur)

/-- The whitespace-separated tokens of a line. -/
def splitToks (s : Line) : List (List Char) := splitToksAux s []

/-- The dump parser's per-token test:
`isdigit(token[0]) || (token[0] == '-' && isdigit(token[1]))`. -/
def tokenNumericStart (t : List Char) : Bool :=
  match t with
  | [] => false
  | c :: rest =>
    isDigitChar c ||
      (c == '-' && (match rest with | d :: _ => isDigitChar d | [] => false))

/-- C `atoi` on a token: optional sign, then the leading run of digits
(`0` if there are none). -/
def atoiZ (t : List Char) : ℤ :=
  match t with
  | '-' :: rest => -((natOfDigits (rest.takeWhile isDigitChar) : ℤ))
  | '+' :: rest => (natOfDigits (rest.takeWhile isDigitChar) : ℤ)
  | _ => (natOfDigits (t.takeWhile isDigitChar) : ℤ)

/-- The token loop of the dump parser: accept up to 10 terminal indices, each
a numeric-looking token whose value lies in `[0, 50)`; other tokens are
skipped without aborting the line. -/
def collectTerms : List (List Char) → Nat → List ℤ
  | [], _ => []
  | t :: ts, n =>
    if 10 ≤ n then []
    else
      if tokenNumericStart t then
        if 0 ≤ atoiZ t ∧ atoiZ t < 50 then atoiZ t :: collectTerms ts (n + 1)
        else collectTerms ts n
      else collectTerms ts n

/-- The terminal indices a dump line yields. -/
def dumpLineTerms (l : Line) : List ℤ := collectTerms (splitToks (skipWs l)) 0

/-- A dump line is skipped (without counting) when its trimmed form contains
`DEBUG` or is empty. -/
def dumpSkip (l : Line) : Bool :=
  hasInfix ("DEBUG").data (skipWs l) || (skipWs l).isEmpty

/-- A tree recorded by the dump parser: id is the 0-based parse order, the
junction flag (`num_steiner_points`) is 1 exactly when the tree has more than
2 terminals, and the cost is the placeholder `100000 + count * 10000`. -/
def mkDumpFST (cnt : Nat) (ts : List ℤ) : FSTRec :=
  ⟨(cnt : ℤ), ts, if 2 < ts.length then 1 else 0, none, false, 100000 + (cnt : ℚ) * 10000⟩

/-- The line loop of `parse_fsts_from_dump`: skip debug/empty lines, accept a
line iff it yields at least 2 terminal indices, stop at `cap` trees. -/
def parseDumpGo : List Line → Nat → Nat → List FSTRec
  | [], _, _ => []
  | l :: rest, cnt, cap =>
    if cap ≤ cnt then []
    else if dumpSkip l then parseDumpGo rest cnt cap
    else
      if 2 ≤ (dumpLineTerms l).length then
        mkDumpFST cnt (dumpLineTerms l) :: parseDumpGo rest (cnt + 1) cap
      else parseDumpGo rest cnt cap

/-- `parse_fsts_from_dump` on a readable dump file. -/
def parse_fsts_from_dump (ls : List Line) (cap : Nat) : List FSTRec :=
  parseDumpGo ls 0 cap

theorem parseDumpGo_ids (ls : List Line) : ∀ (cnt cap : Nat),
    (parseDumpGo ls cnt cap).map FSTRec.fst_id
      = (List.range (parseDumpGo ls cnt cap).length).map (fun k => ((cnt + k : Nat) : ℤ)) := by
  induction ls with
  | nil => intro cnt cap; rfl
  | cons l rest ih =>
    intro cnt cap
    by_cases hcap : cap ≤ cnt
    · simp [parseDumpGo, hcap]
    · by_cases hskip : dumpSkip l = true
      · simp only [parseDumpGo, if_neg hcap, if_pos hskip]
        exact ih cnt cap
      · by_cases hlen : 2 ≤ (dumpLineTerms l).length
        · simp only [parseDumpGo, if_neg hcap, if_neg hskip, if_pos hlen]
          rw [List.map_cons, ih (cnt + 1) cap]
          rw [List.length_cons, List.range_succ_eq_map]
          rw [List.map_cons, List.map_map]
          have hhead : (mkDumpFST cnt (dumpLineTerms l)).fst_id = ((cnt + 0 : Nat) : ℤ) := by
            simp [mkDumpFST]
          have htail : ∀ L : Nat,
              List.map (fun k => ((cnt + 1 + k : Nat) : ℤ)) (List.range L)
                = List.map ((fun k => ((cnt + k : Nat) : ℤ)) ∘ Nat.succ) (List.range L) := by
            intro L
            apply List.map_congr_left
            intro a _
            simp only [Function.comp_apply]
            omega
          rw [hhead, htail]
        · simp only [parseDumpGo, if_neg hcap, if_neg hskip, if_neg hlen]
          exact ih cnt cap

/-! ## Claim theorems: the Tree Dump Parser -/

/-- C7: a non-skipped dump line is accepted as a tree exactly when it yields
at least 2 valid terminal indices (malformed or out-of-range tokens being
skipped without aborting the line, as the concrete token-level conjunct
shows); debug/empty lines are skipped without counting; ids are assigned in
0-based parse order; and the one-line file `4 1 0` yields exactly one tree
with terminal set `[4,1,0]`, id 0, and junction flag set. -/
theorem C7_dump_scan :
    (∀ (l : Line) (rest : List Line) (cnt cap : Nat), cnt < cap →
        dumpSkip l = false →
        (2 ≤ (dumpLineTerms l).length →
          parseDumpGo (l :: rest) cnt cap
            = mkDumpFST cnt (dumpLineTerms l) :: parseDumpGo rest (cnt + 1) cap) ∧
        ((dumpLineTerms l).length < 2 →
          parseDumpGo (l :: rest) cnt cap = parseDumpGo rest cnt cap)) ∧
    (∀ (l : Line) (rest : List Line) (cnt cap : Nat), cnt < cap →
        dumpSkip l = true →
        parseDumpGo (l :: rest) cnt cap = parseDumpGo rest cnt cap) ∧
    (∀ (ls : List Line) (cap : Nat),
        (parse_fsts_from_dump ls cap).map FSTRec.fst_id
          = (List.range (parse_fsts_from_dump ls cap).length).map (fun k : Nat => (k : ℤ))) ∧
    dumpLineTerms ((" 4 xx -1 999 1 0").data) = [4, 1, 0] ∧
    parse_fsts_from_dump [("4 1 0").data] 100
      = [{ fst_id := 0, terminal_ids := [4, 1, 0], num_steiner_points := 1,
           steiner := none, selected := false, cost := 100000 }] := by
  refine ⟨?_, ?_, ?_, by with_unfolding_all rfl, by with_unfolding_all rfl⟩
  · intro l rest cnt cap hcap hskip
    constructor
    · intro hlen
      simp only [parseDumpGo, if_neg (Nat.not_le.mpr hcap), hskip, Bool.false_eq_true,
        if_false, if_pos hlen]
    · intro hlen
      simp only [parseDumpGo, if_neg (Nat.not_le.mpr hcap), hskip, Bool.false_eq_true,
        if_false, if_neg (Nat.not_le.mpr hlen)]
  · intro l rest cnt cap hcap hskip
    simp only [parseDumpGo, if_neg (Nat.not_le.mpr hcap), hskip, if_true]
  · intro ls cap
    have h := parseDumpGo_ids ls 0 cap
    have e : (fun k : Nat => ((0 + k : Nat) : ℤ)) = (fun k : Nat => (k : ℤ)) := by
      funext k
      omega
    rw [e] at h
    unfold parse_fsts_from_dump
    exact h

/-- Witness for C7's per-line statements at concrete inputs. -/
theorem C7_dump_scan_witness :
    parseDumpGo [("4 1 0").data] 0 100
      = mkDumpFST 0 [4, 1, 0] :: parseDumpGo [] 1 100 ∧
    parseDumpGo [("7").data] 0 100 = parseDumpGo [] 0 100 ∧
    parseDumpGo [("DEBUG trees: 1 2 3").data] 0 100 = parseDumpGo [] 0 100 := by
  refine ⟨?_, ?_, ?_⟩
  · have h := (C7_dump_scan.1 (("4 1 0").data) [] 0 100 (by norm_num)
      (by with_unfolding_all rfl)).1
      (by
        have e : dumpLineTerms (("4 1 0").data) = [4, 1, 0] := by with_unfolding_all rfl
        rw [e]
        norm_num)
    rw [h]
    with_unfolding_all rfl
  · exact (C7_dump_scan.1 (("7").data) [] 0 100 (by norm_num)
      (by with_unfolding_all rfl)).2
      (by
        have e : dumpLineTerms (("7").data) = [7] := by with_unfolding_all rfl
        rw [e]
        norm_num)
  · exact C7_dump_scan.2.1 (("DEBUG trees: 1 2 3").data) [] 0 100 (by norm_num)
      (by with_unfolding_all rfl)

/-! ## Selected-id extractor (`parse_selected_fst_ids`) and universe marking -/

/-- The header matcher of `parse_selected_fst_ids`: same trimmed-line
`% fs`/`:` substring conditions and `sscanf(trimmed, "%% fs%d:", ...) == 1`
as the outer Selected-Tree scan, but the terminal list is not parsed, so an
id is collected even when no terminals follow. -/
def selIdMatch (l : Line) : Option ℤ := (headerMatch l).map Prod.fst

/-- The line loop of `parse_selected_fst_ids`: collect header ids in log
order, at most `cap` of them. -/
def parseSelectedIdsGo : List Line → Nat → Nat → List ℤ
  | [], _, _ => []
  | l :: rest, cnt, cap =>
    if cap ≤ cnt then []
    else
      match selIdMatch l with
      | some id => id :: parseSelectedIdsGo rest (cnt + 1) cap
      | none => parseSelectedIdsGo rest cnt cap

/-- `parse_selected_fst_ids` on a readable log. -/
def parse_selected_fst_ids (ls : List Line) (cap : Nat) : List ℤ :=
  parseSelectedIdsGo ls 0 cap

/-- The marking loop of `create_rich_visualization`: each universe tree's
`selected` flag is reset and then set exactly when its id occurs in the
extracted id list (linear search with early break = list membership). -/
def markSelected (fsts : List FSTRec) (ids : List ℤ) : List FSTRec :=
  fsts.map (fun f => { f with selected := decide (f.fst_id ∈ ids) })

/-! ## Claim theorems: selected-flag round trip -/

/-- C8: after the marking loop runs on the dump-derived universe with the id
list extracted from the solver log, a universe tree carries `selected = true`
iff its id is in the extracted list — no tree is marked whose id the header
scan did not emit, and every emitted id marks the trees bearing it.  Marking
changes no other field. -/
theorem C8_selected_round_trip :
    (∀ (uni : List FSTRec) (log : List Line) (f : FSTRec),
        f ∈ markSelected uni (parse_selected_fst_ids log 50) →
        (f.selected = true ↔ f.fst_id ∈ parse_selected_fst_ids log 50)) ∧
    (∀ (uni : List FSTRec) (ids : List ℤ),
        (markSelected uni ids).map FSTRec.fst_id = uni.map FSTRec.fst_id ∧
        (markSelected uni ids).map FSTRec.terminal_ids
          = uni.map FSTRec.terminal_ids) := by
  constructor
  · intro uni log f hf
    rcases List.mem_map.mp hf with ⟨f0, _, rfl⟩
    show decide (f0.fst_id ∈ _) = true ↔ _
    rw [decide_eq_true_eq]
  · intro uni ids
    constructor
    · rw [markSelected, List.map_map]
      rfl
    · rw [markSelected, List.map_map]
      rfl

/-- Witness for C8 on a concrete universe and log: the tree with id 1 is
marked, the tree with id 0 is not. -/
theorem C8_selected_round_trip_witness :
    (({ fst_id := 1, terminal_ids := [1, 2], num_steiner_points := 0, steiner := none,
        selected := true, cost := 0 } : FSTRec).selected = true ↔
      (1 : ℤ) ∈ parse_selected_fst_ids [("  % fs1: 1 2").data] 50) ∧
    (({ fst_id := 0, terminal_ids := [0, 1], num_steiner_points := 0, steiner := none,
        selected := false, cost := 0 } : FSTRec).selected = true ↔
      (0 : ℤ) ∈ parse_selected_fst_ids [("  % fs1: 1 2").data] 50) := by
  constructor
  · refine C8_selected_round_trip.1
      [{ fst_id := 1, terminal_ids := [1, 2], num_steiner_points := 0, steiner := none,
         selected := false, cost := 0 }]
      [("  % fs1: 1 2").data] _ ?_
    have e : markSelected
        [{ fst_id := 1, terminal_ids := [1, 2], num_steiner_points := 0, steiner := none,
           selected := false, cost := 0 }]
        (parse_selected_fst_ids [("  % fs1: 1 2").data] 50)
        = [{ fst_id := 1, terminal_ids := [1, 2], num_steiner_points := 0, steiner := none,
             selected := true, cost := 0 }] := by
      with_unfolding_all rfl
    rw [e]
    exact List.mem_singleton.mpr rfl
  · refine C8_selected_round_trip.1
      [{ fst_id := 0, terminal_ids := [0, 1], num_steiner_points := 0, steiner := none,
         selected := true, cost := 0 }]
      [("  % fs1: 1 2").data] _ ?_
    have e : markSelected
        [{ fst_id := 0, terminal_ids := [0, 1], num_steiner_points := 0, steiner := none,
           selected := true, cost := 0 }]
        (parse_selected_fst_ids [("  % fs1: 1 2").data] 50)
        = [{ fst_id := 0, terminal_ids := [0, 1], num_steiner_points := 0, steiner := none,
             selected := false, cost := 0 }] := by
      with_unfolding_all rfl
    rw [e]
    exact List.mem_singleton.mpr rfl

/-! ## Report Renderer: bound-checked terminal lookups while drawing -/

/-- A parsed terminal's coordinates (battery and flags are irrelevant to the
edge-drawing bound checks). -/
structure TermPt where
  x : ℚ
  y : ℚ
deriving Repr, DecidableEq

/-- The guard applied before every terminal-table access in the drawing code:
`term_id >= 0 && term_id < num_terminals`. -/
def termInRange (n : Nat) (tid : ℤ) : Bool := decide (0 ≤ tid) && decide (tid < (n : ℤ))

/-- The terminal indices at which the drawing loops read the terminal table
for one selected tree: with a Steiner point, every in-range terminal of the
tree (one spoke each); without, both ends of every consecutive pair whose two
endpoints are in range. -/
def svgFstUsedIndices (n : Nat) (f : FSTRec) : List ℤ :=
  if 0 < f.num_steiner_points then
    f.terminal_ids.filter (termInRange n)
  else
    (f.terminal_ids.zip f.terminal_ids.tail).foldr
      (fun p acc =>
        if termInRange n p.1 && termInRange n p.2 then p.1 :: p.2 :: acc else acc) []

/-- The SVG line segments drawn for one selected tree, mirroring the two
drawing loops: edge endpoints are read from the terminal table only behind
the range guard, and a guarded read uses `getD` (the C array access). -/
def svgFstLines (terms : List TermPt) (f : FSTRec) : List ((ℤ × ℤ) × (ℤ × ℤ)) :=
  if 0 < f.num_steiner_points then
    let sp := f.steiner.getD (0, 0)
    let s := scale_coordinates sp.1 sp.2
    (f.terminal_ids.filter (termInRange terms.length)).map
      (fun tid =>
        let t := terms.getD tid.toNat ⟨0, 0⟩
        (s, scale_coordinates t.x t.y))
  else
    ((f.terminal_ids.zip f.terminal_ids.tail).filter
        (fun p => termInRange terms.length p.1 && termInRange terms.length p.2)).map
      (fun p =>
        let t1 := terms.getD p.1.toNat ⟨0, 0⟩
        let t2 := terms.getD p.2.toNat ⟨0, 0⟩
        (scale_coordinates t1.x t1.y, scale_coordinates t2.x t2.y))

theorem termInRange_iff {n : Nat} {tid : ℤ} :
    termInRange n tid = true ↔ 0 ≤ tid ∧ tid < (n : ℤ) := by
  simp [termInRange]

theorem mem_pairFold {n : Nat} (ps : List (ℤ × ℤ)) (i : ℤ) :
    i ∈ ps.foldr
      (fun p acc =>
        if termInRange n p.1 && termInRange n p.2 then p.1 :: p.2 :: acc else acc) [] →
    ∃ p ∈ ps, (termInRange n p.1 && termInRange n p.2) = true ∧ (i = p.1 ∨ i = p.2) := by
  induction ps with
  | nil =>
    intro h
    simp at h
  | cons p ps ih =>
    intro h
    rw [List.foldr_cons] at h
    by_cases hg : (termInRange n p.1 && termInRange n p.2) = true
    · rw [if_pos hg] at h
      rcases List.mem_cons.mp h with h1 | h2
      · exact ⟨p, List.mem_cons_self p ps, hg, Or.inl h1⟩
      · rcases List.mem_cons.mp h2 with h3 | h4
        · exact ⟨p, List.mem_cons_self p ps, hg, Or.inr h3⟩
        · rcases ih h4 with ⟨q, hq, hg2, hi⟩
          exact ⟨q, List.mem_cons_of_mem p hq, hg2, hi⟩
    · rw [if_neg hg] at h
      rcases ih h with ⟨q, hq, hg2, hi⟩
      exact ⟨q, List.mem_cons_of_mem p hq, hg2, hi⟩

/-! ## Claim theorems: renderer bound checks -/

/-- C10: every terminal index the drawing loops use to read the terminal
table passes the `[0, num_terminals)` range check, so the guarded table read
always succeeds (never out of bounds); an edge endpoint whose index is out of
range is silently omitted, as the concrete direct-edge and Steiner examples
show. -/
theorem C10_renderer_bounds :
    (∀ (n : Nat) (f : FSTRec) (i : ℤ),
        i ∈ svgFstUsedIndices n f → 0 ≤ i ∧ i < (n : ℤ)) ∧
    (∀ (terms : List TermPt) (f : FSTRec) (i : ℤ),
        i ∈ svgFstUsedIndices terms.length f → (terms[i.toNat]?).isSome = true) ∧
    svgFstLines [⟨0, 0⟩, ⟨1, 0⟩, ⟨0, 1⟩, ⟨1, 1⟩, ⟨1 / 2, 1 / 2⟩]
      { fst_id := 0, terminal_ids := [0, 99], num_steiner_points := 0,
        steiner := none, selected := true, cost := 0 } = [] ∧
    svgFstUsedIndices 5
      { fst_id := 1, terminal_ids := [0, 99, 2], num_steiner_points := 1,
        steiner := some (1 / 2, 1 / 2), selected := true, cost := 0 } = [0, 2] := by
  have hmain : ∀ (n : Nat) (f : FSTRec) (i : ℤ),
      i ∈ svgFstUsedIndices n f → 0 ≤ i ∧ i < (n : ℤ) := by
    intro n f i hi
    unfold svgFstUsedIndices at hi
    by_cases hst : 0 < f.num_steiner_points
    · rw [if_pos hst] at hi
      exact termInRange_iff.mp (List.mem_filter.mp hi).2
    · rw [if_neg hst] at hi
      rcases mem_pairFold _ i hi with ⟨p, _, hg, hcase⟩
      rcases (Bool.and_eq_true _ _).mp hg with ⟨h1, h2⟩
      rcases hcase with rfl | rfl
      · exact termInRange_iff.mp h1
      · exact termInRange_iff.mp h2
  refine ⟨hmain, ?_, by with_unfolding_all rfl, by with_unfolding_all rfl⟩
  intro terms f i hi
  rcases hmain terms.length f i hi with ⟨h0, hlt⟩
  have : i.toNat < terms.length := (Int.toNat_lt h0).mpr hlt
  rw [List.getElem?_eq_getElem this]
  rfl

/-- Witness for C10 at a concrete tree whose terminal list mentions an
out-of-range id. -/
theorem C10_renderer_bounds_witness :
    ((0 : ℤ) ≤ 0 ∧ (0 : ℤ) < (5 : ℤ)) ∧
    (([⟨0, 0⟩, ⟨1, 0⟩, ⟨0, 1⟩, ⟨1, 1⟩, ⟨1 / 2, 1 / 2⟩] :
        List TermPt)[(0 : ℤ).toNat]?).isSome = true := by
  constructor
  · have h := C10_renderer_bounds.1 5
      { fst_id := 1, terminal_ids := [0, 99, 2], num_steiner_points := 1,
        steiner := some (1 / 2, 1 / 2), selected := true, cost := 0 } 0 ?_
    · exact_mod_cast h
    · have e : svgFstUsedIndices 5
          { fst_id := 1, terminal_ids := [0, 99, 2], num_steiner_points := 1,
            steiner := some (1 / 2, 1 / 2), selected := true, cost := 0 } = [0, 2] := by
        with_unfolding_all rfl
      rw [e]
      exact List.mem_cons_self _ _
  · have h := C10_renderer_bounds.2.1
      ([⟨0, 0⟩, ⟨1, 0⟩, ⟨0, 1⟩, ⟨1, 1⟩, ⟨1 / 2, 1 / 2⟩] : List TermPt)
      { fst_id := 1, terminal_ids := [0, 99, 2], num_steiner_points := 1,
        steiner := some (1 / 2, 1 / 2), selected := true, cost := 0 } 0 ?_
    · exact h
    · have e : svgFstUsedIndices 5
          { fst_id := 1, terminal_ids := [0, 99, 2], num_steiner_points := 1,
            steiner := some (1 / 2, 1 / 2), selected := true, cost := 0 } = [0, 2] := by
        with_unfolding_all rfl
      show (0 : ℤ) ∈ svgFstUsedIndices 5 _
      rw [e]
      exact List.mem_cons_self _ _

/-! ## Terminal-List Parser and the error handling of report generation -/

/-- The `fscanf("%lf %lf %lf")` loop of `parse_terminals`: parse whitespace
separated coordinate/battery triples from the file's character stream until a
conversion fails or `maxT` terminals are stored. -/
def parseTriples : Nat → Line → List (ℚ × ℚ × ℚ)
  | 0, _ => []
  | n + 1, s =>
    match scanFloat s with
    | some (x, r1) =>
      match scanFloat r1 with
      | some (y, r2) =>
        match scanFloat r2 with
        | some (b, r3) => (x, y, b) :: parseTriples n r3
        | none => []
      | none => []
    | none => []

/-- `parse_terminals`: `-1` for an unopenable file (`none`), otherwise the
number of triples parsed. -/
def parse_terminals_count (file : Option Line) (maxT : Nat) : ℤ :=
  match file with
  | none => -1
  | some s => ((parseTriples maxT s).length : ℤ)

/-- Observable outcome of one `create_rich_visualization` call: the error
messages printed to stderr, whether the report file was written, and whether
the call terminated the process (it never does — its error paths `return` to
the caller). -/
structure VizOutcome where
  errors : List String
  reportWritten : Bool
  exited : Bool
deriving Repr, DecidableEq

/-- `create_rich_visualization`: refuses to proceed (printing an error and
returning, not exiting) when the terminal file yielded no terminals or the
output HTML file cannot be created; any dump/coverage parsing failure
(modelled by the ignored `dumpCount` and `coverageOk` arguments, whose
sentinels the code never checks) is absorbed and the report is still
written. -/
def create_rich_visualization (numTerminals : ℤ) (canCreateHtml : Bool)
    (dumpCount : ℤ) (coverageOk : Bool) : VizOutcome :=
  if numTerminals ≤ 0 then ⟨["Error: Could not parse terminals file"], false, false⟩
  else if !canCreateHtml then ⟨["Error: Cannot create HTML file"], false, false⟩
  else ⟨[], true, false⟩

/-- The tail of `main` (lines 337–346): call `create_rich_visualization`,
print the completion banner, `return 0`.  Since the visualization call never
exits, the process exit status is 0 on every path that reaches it. -/
def mainVisualizationStep (numTerminals : ℤ) (canCreateHtml : Bool)
    (dumpCount : ℤ) (coverageOk : Bool) : ℤ × VizOutcome :=
  (0, create_rich_visualization numTerminals canCreateHtml dumpCount coverageOk)

/-! ## Claim theorems: error handling of the pipeline -/

/-- C2 counterexample: with an unparseable (here: unopenable) terminal file
the report-generation step prints the explicit error message and refuses to
proceed, but it returns instead of exiting, and `main` still returns 0 — the
pipeline does *not* terminate with a non-zero exit status.  The same holds
when the output report file cannot be created. -/
theorem C2_error_exit_counterexample :
    parse_terminals_count none 50 ≤ 0 ∧
    (create_rich_visualization (parse_terminals_count none 50) true 0 true).errors
      = ["Error: Could not parse terminals file"] ∧
    (create_rich_visualization (parse_terminals_count none 50) true 0 true).exited
      = false ∧
    (mainVisualizationStep (parse_terminals_count none 50) true 0 true).1 = 0 ∧
    (mainVisualizationStep 5 false 0 true).1 = 0 ∧
    (create_rich_visualization 5 false 0 true).errors = ["Error: Cannot create HTML file"] := by
  exact ⟨by norm_num [parse_terminals_count], rfl, rfl, rfl, rfl, rfl⟩

/-- C2 amended: if the terminal file cannot be parsed at all, or the output
report file cannot be created, the report-generation step prints an explicit
error message and skips the report, while the process still exits with
status 0; all other core parsing failures (dump/coverage sentinels) are
absorbed without affecting the outcome, and with parseable terminals and a
creatable output file the report is written. -/
theorem C2_error_handling_amended :
    (∀ (n : ℤ) (c : Bool) (d : ℤ) (cov : Bool), n ≤ 0 →
        (create_rich_visualization n c d cov).errors
            = ["Error: Could not parse terminals file"] ∧
        (create_rich_visualization n c d cov).reportWritten = false ∧
        (create_rich_visualization n c d cov).exited = false ∧
        (mainVisualizationStep n c d cov).1 = 0) ∧
    (∀ (n : ℤ) (d : ℤ) (cov : Bool), 0 < n →
        (create_rich_visualization n false d cov).errors
            = ["Error: Cannot create HTML file"] ∧
        (create_rich_visualization n false d cov).reportWritten = false ∧
        (create_rich_visualization n false d cov).exited = false ∧
        (mainVisualizationStep n false d cov).1 = 0) ∧
    (∀ (n : ℤ) (c : Bool) (d d2 : ℤ) (cov cov2 : Bool),
        create_rich_visualization n c d cov = create_rich_visualization n c d2 cov2) ∧
    (∀ (n : ℤ) (d : ℤ) (cov : Bool), 0 < n →
        (create_rich_visualization n true d cov).reportWritten = true ∧
        (mainVisualizationStep n true d cov).1 = 0) := by
  refine ⟨?_, ?_, ?_, ?_⟩
  · intro n c d cov hn
    unfold mainVisualizationStep create_rich_visualization
    rw [if_pos hn]
    exact ⟨rfl, rfl, rfl, rfl⟩
  · intro n d cov hn
    unfold mainVisualizationStep create_rich_visualization
    rw [if_neg (not_le.mpr hn)]
    exact ⟨rfl, rfl, rfl, rfl⟩
  · intro n c d d2 cov cov2
    unfold create_rich_visualization
    rfl
  · intro n d cov hn
    unfold mainVisualizationStep create_rich_visualization
    rw [if_neg (not_le.mpr hn)]
    exact ⟨rfl, rfl⟩

/-- Witness for the amended C2 at concrete inputs. -/
theorem C2_error_handling_amended_witness :
    ((create_rich_visualization (-1) true 0 true).errors
        = ["Error: Could not parse terminals file"] ∧
      (create_rich_visualization (-1) true 0 true).reportWritten = false ∧
      (create_rich_visualization (-1) true 0 true).exited = false ∧
      (mainVisualizationStep (-1) true 0 true).1 = 0) ∧
    ((create_rich_visualization 5 true (-1) false).reportWritten = true ∧
      (mainVisualizationStep 5 true (-1) false).1 = 0) :=
  ⟨C2_error_handling_amended.1 (-1) true 0 true (by norm_num),
   C2_error_handling_amended.2.2.2 5 (-1) false (by norm_num)⟩

end Simulate
